import Mathlib

set_option linter.unusedVariables false

/-!
Shallow embedding of the SnapShot SAST microservice core
(`sast_service/app/app.py`): content classification, external scan
invocation, finding normalization, and the bounded in-memory stores
(scanning registry, findings store), together with proofs of the
behavioural properties claimed about them.

Python strings are embedded as Lean `String`; Python substring tests,
`str.upper`/`str.lower`, `str.endswith` and `str.split` are re-implemented
over the character list so that every definition evaluates inside the
kernel.  Python values that may be `None`/falsy are embedded as `Option`.
Filesystem and subprocess effects of the scan invoker are embedded as an
explicit environment (`EngineEnv`) plus an explicit list of existing file
paths threaded through the call.
-/

namespace SnapShot

/-- Test `startsList pre l` : `pre` is a prefix of `l` (character lists). -/
def startsList : List Char → List Char → Bool
  | [], _ => true
  | _ :: _, [] => false
  | a :: pre, b :: l => a = b && startsList pre l

/-- Test `containsList sub l` : `sub` occurs as a contiguous sublist of `l`.
Embeds the Python `sub in s` substring test. -/
def containsList (sub : List Char) : List Char → Bool
  | [] => startsList sub []
  | c :: cs => startsList sub (c :: cs) || containsList sub cs

/-- Python `sub in s` (substring containment). -/
def strContains (s sub : String) : Bool :=
  containsList sub.data s.data

/-- Python `s.endswith(suffix)`. -/
def strEndsWith (s suffix : String) : Bool :=
  startsList suffix.data.reverse s.data.reverse

/-- Python `s.upper()` (ASCII, which is all the source uses). -/
def strUpper (s : String) : String :=
  ⟨s.data.map Char.toUpper⟩

/-- Python `s.lower()` (ASCII, which is all the source uses). -/
def strLower (s : String) : String :=
  ⟨s.data.map Char.toLower⟩

/-- Python `split` on the dot character over a character list: the list of dot-separated
segments (always non-empty, empty segments preserved). -/
def splitDots : List Char → List (List Char)
  | [] => [[]]
  | c :: cs =>
    if c = '.' then [] :: splitDots cs
    else
      match splitDots cs with
      | [] => [[c]]
      | seg :: segs => (c :: seg) :: segs

/-- Python `split` on dot, last element: the last dot-delimited segment. -/
def lastDotSegment (s : String) : String :=
  ⟨(splitDots s.data).getLastD []⟩

/-- Python `s[1:]` for the extension strings of the source. -/
def strTail (s : String) : String :=
  ⟨s.data.drop 1⟩

-- Constants from app.py lines 26-29.  `TEMP_DIR` / `RULES_DIR` are
-- `os.path.join(os.getcwd(), ...)`; the working-directory prefix is
-- irrelevant to the claims, so they are embedded as the relative paths.

def TEMP_DIR : String := "temp_sast"

def RULES_DIR : String := "semgrep-rules"

def MAX_SAST_FINDINGS : Nat := 500

def MAX_SCANNING_ITEMS : Nat := 20

/-- Dict `severity_map` of `map_semgrep_severity_to_sast_severity`
(app.py lines 198-202), as an association list. -/
def severity_map : List (String × String) :=
  [("ERROR", "CRITICAL"), ("WARNING", "HIGH"), ("INFO", "MEDIUM")]

/-- app.py lines 196-206. `none` embeds Python `None`; the empty string is
falsy in Python, so both fall to the default `MEDIUM`. -/
def map_semgrep_severity_to_sast_severity (semgrep_severity : Option String) : String :=
  match semgrep_severity with
  | none => "MEDIUM"
  | some s =>
    if s = "" then "MEDIUM"
    else
      match severity_map.lookup (strUpper s) with
      | some v => v
      | none => "MEDIUM"

/-- Extension selection of `run_semgrep_analysis`, app.py lines 77-95
(initialisation to `.txt` followed by the `if/elif` chain). -/
def semgrep_extension (content_type url : String) : String :=
  if strContains content_type "html" then ".html"
  else if strContains content_type "javascript" then ".js"
  else if strContains content_type "json" then ".json"
  else if strContains content_type "php" then ".php"
  else if strContains content_type "python" then ".py"
  else if strEndsWith url ".js" then ".js"
  else if strEndsWith url ".php" then ".php"
  else if strEndsWith url ".py" then ".py"
  else ".txt"

/-- Headers dict: the only key the core reads is `content-type`
(read as `headers.get("content-type", "")`), embedded as a single field
holding the result of that lookup. -/
structure Headers where
  content_type : String
deriving Repr, DecidableEq

/-- app.py lines 233-248. -/
def get_file_type_from_content_type (headers : Headers) : String :=
  let content_type := strLower headers.content_type
  if strContains content_type "html" then "HTML"
  else if strContains content_type "javascript" then "JavaScript"
  else if strContains content_type "json" then "JSON"
  else if strContains content_type "xml" then "XML"
  else if strContains content_type "css" then "CSS"
  else "Unknown"

-- Eligibility flags computed in `analyze_sast`, app.py lines 335-343.
-- `content_type` is the already-lowercased header value (line 334).

/-- Flag `is_html`, app.py line 335. -/
def is_html (content_type : String) : Bool :=
  strContains content_type "html"

/-- Flag `is_js`, app.py lines 336-339. -/
def is_js (content_type url : String) : Bool :=
  strContains content_type "javascript" ||
  strContains content_type "application/json" ||
  strContains content_type "application/x-javascript" ||
  strEndsWith url ".js"

/-- Flag `is_text`, app.py lines 340-343. -/
def is_text (content_type url : String) : Bool :=
  strContains content_type "text" ||
  is_html content_type ||
  is_js content_type url ||
  strContains content_type "xml"

/-- An entry of the scanning registry (`sast_scanning`), built at app.py
lines 326-331: `url`, `timestamp`, `status`, `type`. -/
structure ScanningItem where
  url : String
  timestamp : Int
  status : String
  type : String
deriving Repr, DecidableEq

/-- The nested `details` dict of a finding, app.py lines 171-176. -/
structure FindingDetails where
  rule : String
  path : String
  startLine : Int
  endLine : Int
deriving Repr, DecidableEq

/-- A normalized finding, app.py lines 159-177.  The Python key `at` is
embedded as the field `at_` (`at` is reserved in Lean). -/
structure Finding where
  type : String
  cveId : String
  severity : String
  title : String
  url : String
  tech : String
  version : String
  indicator : String
  method : String
  at_ : Int
  source : String
  details : FindingDetails
deriving Repr, DecidableEq

/-- The Python exceptions that can cross the boundaries modelled here:
`KeyError` (missing dict key, e.g. `semgrep_results["results"]` at app.py
line 156), `OSError`/`FileNotFoundError` (e.g. `os.listdir` on a missing
rules directory, line 111), and a catch-all. -/
inductive PyExc where
  | keyError
  | osError
  | generic
deriving Repr, DecidableEq

/-- The `extra` dict of one semgrep result entry (severity may be absent). -/
structure SemgrepExtra where
  severity : Option String
  message : String
  lines : String
deriving Repr, DecidableEq

/-- One entry of the semgrep JSON `results` list, with the fields the
source reads (`check_id`, `extra`, `path`, `start.line`, `end.line`). -/
structure SemgrepResult where
  check_id : String
  extra : SemgrepExtra
  path : String
  start_line : Int
  end_line : Int
deriving Repr, DecidableEq

/-- Parsed semgrep JSON output.  `results = none` embeds a JSON document
with no `results` key: app.py line 156 indexes `semgrep_results["results"]`
before the `"results" in semgrep_results` guard of line 157, so that case
raises an uncaught `KeyError`. -/
structure SemgrepOutput where
  results : Option (List SemgrepResult)
deriving Repr, DecidableEq

/-- Environment of one `run_semgrep_analysis` call: the initialization
flag, the fresh uuid for the scratch file, and oracles for every
filesystem / subprocess / parsing effect.  `run_engine` returning
`.error` embeds `subprocess.run(..., check=True)` raising
`SubprocessError` (caught at line 180); `parse_json` returning `none`
embeds `json.JSONDecodeError` (caught at line 178); `listdir` returning
`.error` embeds `os.listdir` raising (NOT caught locally); `unlink_ok`
false embeds `os.unlink` raising `OSError` (caught at line 187). -/
structure EngineEnv where
  initialized : Bool
  file_id : String
  listdir : String → Except PyExc (List String)
  isdir : String → Bool
  path_exists : String → Bool
  run_engine : String → String → Except PyExc String
  parse_json : String → Option SemgrepOutput
  unlink_ok : String → Bool

/-- One branch body of the ruleset-selection chain, app.py lines 107-114
(and its three near-identical copies): `[path + "/security"]` followed by
every entry of `os.listdir(path)` whose joined path is a directory, in
listing order.  Propagates the `os.listdir` exception. -/
def list_rulesets (env : EngineEnv) (path : String) : Except PyExc (List String) := do
  let items ← env.listdir path
  pure ((path ++ "/security") ::
    items.filterMap (fun item =>
      let item_path := path ++ "/" ++ item
      if env.isdir item_path then some item_path else none))

/-- Ruleset selection of `run_semgrep_analysis`, app.py lines 104-141. -/
def resolve_rulesets (env : EngineEnv) (extension : String) : Except PyExc (List String) :=
  if extension = ".js" then list_rulesets env (RULES_DIR ++ "/javascript")
  else if extension = ".html" then list_rulesets env (RULES_DIR ++ "/html")
  else if extension = ".php" then list_rulesets env (RULES_DIR ++ "/php")
  else if extension = ".py" then list_rulesets env (RULES_DIR ++ "/python")
  else pure []

/-- Normalization of one semgrep result entry into a `Finding`, app.py
lines 159-177. -/
def semgrep_result_to_finding (finding : SemgrepResult) (url method host extension : String)
    (timestamp : Int) : Finding :=
  { type := strUpper (lastDotSegment finding.check_id)
    cveId := "[SEMGREP-" ++ finding.check_id ++ "]"
    severity := map_semgrep_severity_to_sast_severity finding.extra.severity
    title := finding.extra.message
    url := url
    tech := strUpper (strTail extension)
    version := host  -- `host or ""`: the empty string is its own default
    indicator := finding.extra.lines
    method := method
    at_ := timestamp
    source := "SEMGREP"
    details :=
      { rule := finding.check_id
        path := finding.path
        startLine := finding.start_line
        endLine := finding.end_line } }

/-- Per-ruleset loop of `run_semgrep_analysis`, app.py lines 147-181.
A `SubprocessError` from the engine or a JSON decode error is caught and
the loop continues with the next ruleset; a missing `results` key raises
`KeyError` out of the loop (line 156). -/
def run_rulesets (env : EngineEnv) (temp_file_path url method host extension : String)
    (timestamp : Int) : List String → List Finding → Except PyExc (List Finding)
  | [], findings => .ok findings
  | ruleset :: rest, findings =>
    if env.path_exists ruleset then
      match env.run_engine ruleset temp_file_path with
      | .error _ =>
        run_rulesets env temp_file_path url method host extension timestamp rest findings
      | .ok stdout =>
        match env.parse_json stdout with
        | none =>
          run_rulesets env temp_file_path url method host extension timestamp rest findings
        | some out =>
          match out.results with
          | none => .error .keyError
          | some results =>
            run_rulesets env temp_file_path url method host extension timestamp rest
              (findings ++ results.map (fun f =>
                semgrep_result_to_finding f url method host extension timestamp))
    else
      run_rulesets env temp_file_path url method host extension timestamp rest findings

/-- Function `run_semgrep_analysis`, app.py lines 61-193.  `fs` is the list of
existing file paths; the returned list is the filesystem after the call
(the written scratch file is recorded there, and removed again only on
the paths that reach the `os.unlink` of line 186 and succeed).  The outer
`except` of line 191 returns `[]` without any cleanup, so both uncaught
exception paths return with the scratch file still present. -/
def run_semgrep_analysis (env : EngineEnv) (fs : List String)
    (content url method host content_type : String) (timestamp : Int) :
    List Finding × List String :=
  if !env.initialized then ([], fs)
  else
    let extension := semgrep_extension content_type url
    let temp_file_path := TEMP_DIR ++ "/" ++ env.file_id ++ extension
    let fs1 := temp_file_path :: fs
    match resolve_rulesets env extension with
    | .error _ => ([], fs1)
    | .ok rulesets =>
      match run_rulesets env temp_file_path url method host extension timestamp rulesets [] with
      | .error _ => ([], fs1)
      | .ok findings =>
        let fs2 := if env.unlink_ok temp_file_path then fs1.erase temp_file_path else fs1
        (findings, fs2)

/-- Function `add_scanning_item`, app.py lines 251-268.  `none` embeds the falsy /
missing-`url` guard of line 255 (a dict without the key cannot be a
`ScanningItem`, which always carries one). -/
def add_scanning_item (sast_scanning : List ScanningItem) (item : Option ScanningItem) :
    List ScanningItem :=
  match item with
  | none => sast_scanning
  | some item =>
    let filtered := sast_scanning.filter (fun scan => scan.url != item.url)
    let appended := filtered ++ [item]
    if MAX_SCANNING_ITEMS < appended.length then appended.drop 1 else appended

/-- Function `update_scanning_item_status`, app.py lines 271-280: mutate the status
of the first entry whose url matches, then `break`. -/
def update_scanning_item_status (sast_scanning : List ScanningItem) (url status : String) :
    List ScanningItem :=
  match sast_scanning with
  | [] => []
  | item :: rest =>
    if item.url = url then { item with status := status } :: rest
    else item :: update_scanning_item_status rest url status

/-- Function `remove_scanning_item`, app.py lines 283-287. -/
def remove_scanning_item (sast_scanning : List ScanningItem) (url : String) :
    List ScanningItem :=
  sast_scanning.filter (fun item => item.url != url)

/-- Function `add_sast_findings`, app.py lines 290-300: no-op on an empty list,
otherwise append item by item, popping the oldest entry whenever the
running size exceeds `MAX_SAST_FINDINGS`.  The store is polymorphic (a
Python list holds anything); the pipeline instantiates it at `Finding`. -/
def add_sast_findings {α : Type} (sast_findings : List α) (items : List α) : List α :=
  if items.isEmpty then sast_findings
  else
    items.foldl (fun store item =>
      let appended := store ++ [item]
      if MAX_SAST_FINDINGS < appended.length then appended.drop 1 else appended)
      sast_findings

-- Legacy analyzers, app.py lines 209-230: all three are stubs returning [].

/-- Stub `analyze_html`, app.py lines 209-214. -/
def analyze_html (text url host path method : String) (timestamp : Int) : List Finding := []

/-- Stub `analyze_javascript`, app.py lines 217-222. -/
def analyze_javascript (text url host path method : String) (timestamp : Int) : List Finding := []

/-- Stub `analyze_generic`, app.py lines 225-230. -/
def analyze_generic (text url host path method : String) (timestamp : Int) : List Finding := []

/-- A captured record, app.py lines 315-319: every field is read with
`record.get(key, default)`, so each is an `Option`. -/
structure CapturedRecord where
  url : Option String
  method : Option String
  host : Option String
  path : Option String
  timestamp : Option Int
deriving Repr, DecidableEq

/-- The mutable module state the pipeline touches: the scanning registry,
the findings store, and the filesystem (existing paths). -/
structure PipelineState where
  sast_scanning : List ScanningItem
  sast_findings : List Finding
  fs : List String
deriving Repr, DecidableEq

/-- Function `analyze_sast`, app.py lines 303-386.  `record = none` embeds a
falsy record, `body = none` a missing body ( `some ""` being the falsy
empty string).  Returns (result list, new state, urls whose registry
removal the `finally` block scheduled on a 2-second timer — deferred, so
not yet applied to the returned state).  The `except` branch of line 378
is unreachable in the embedding because every callee is total: the real
callees catch their own exceptions (`run_semgrep_analysis` catches all). -/
def analyze_sast (env : EngineEnv) (now : Int) (st : PipelineState)
    (record : Option CapturedRecord) (body : Option String) (headers : Option Headers) :
    List Finding × PipelineState × List String :=
  match record, body with
  | none, _ => ([], st, [])
  | some _, none => ([], st, [])
  | some r, some b =>
    if b = "" then ([], st, [])
    else
      let hs := headers.getD { content_type := "" }
      let url := r.url.getD ""
      let method := r.method.getD ""
      let host := r.host.getD ""
      let path := r.path.getD ""
      -- `if not timestamp`: Python treats both None and 0 as falsy
      let timestamp :=
        match r.timestamp with
        | none => now
        | some t => if t = 0 then now else t
      let scanning1 := add_scanning_item st.sast_scanning (some
        { url := url, timestamp := timestamp, status := "analyzing",
          type := get_file_type_from_content_type hs })
      let content_type := strLower hs.content_type
      if !(is_text content_type url) then
        ([], { st with sast_scanning := remove_scanning_item scanning1 url }, [url])
      else
        let text := b
        let (semgrep_findings, fs1) :=
          run_semgrep_analysis env st.fs text url method host content_type timestamp
        let findings := semgrep_findings
          ++ (if is_html content_type then analyze_html text url host path method timestamp
              else [])
          ++ (if is_js content_type url || is_html content_type then
                analyze_javascript text url host path method timestamp
              else [])
          ++ analyze_generic text url host path method timestamp
        let scanning2 := update_scanning_item_status scanning1 url "completed"
        let findings_store :=
          if findings.isEmpty then st.sast_findings
          else add_sast_findings st.sast_findings findings
        (findings,
         { sast_scanning := scanning2, sast_findings := findings_store, fs := fs1 },
         [url])

/-!
## Spec-side definitions

These follow the wording of the specification (not the source); the
refinement theorems below compare them with the source-derived
definitions.
-/

/-- Modelled from the wording of the extension rule in the spec (§4.1):
content-type substring matches, tested in the given order, take
precedence; if none match, the URL suffix decides; default `.txt`. -/
def extension_spec (content_type url : String) : String :=
  match [("html", ".html"), ("javascript", ".js"), ("json", ".json"),
         ("php", ".php"), ("python", ".py")].find?
      (fun p => strContains content_type p.1) with
  | some p => p.2
  | none =>
    match [".js", ".php", ".py"].find? (fun suffix => strEndsWith url suffix) with
    | some suffix => suffix
    | none => ".txt"

/-- The most recent `n` elements of `l`, in order ("the most recent `cap`
insertions in insertion order" of the bounded-store property in the spec). -/
def lastN {α : Type} (n : Nat) (l : List α) : List α :=
  l.drop (l.length - n)

/-- The shared bounded-append step of both stores (app.py lines 262-266
and 298-300): append one element, then pop the oldest entry if the size
exceeds the cap. -/
def cappedAppend {α : Type} (cap : Nat) (store : List α) (a : α) : List α :=
  let appended := store ++ [a]
  if cap < appended.length then appended.drop 1 else appended

/-!
## Concrete fixtures

Closed environments and states used by the witness / counterexample
theorems below.
-/

/-- An environment in which the engine is initialized, the rules
directory listing succeeds (empty), and no ruleset path exists on disk:
the scan runs end to end without findings. -/
def env_ok : EngineEnv :=
  { initialized := true
    file_id := "scan"
    listdir := fun _ => .ok []
    isdir := fun _ => false
    path_exists := fun _ => false
    run_engine := fun _ _ => .error .generic
    parse_json := fun _ => none
    unlink_ok := fun _ => true }

/-- An environment in which `os.listdir` on the rules directory raises
(the rules repository was never cloned): the exception is only caught by
the outer handler of app.py line 191, after the scratch file was written
and before the cleanup of line 186. -/
def env_cx : EngineEnv :=
  { initialized := true
    file_id := "scan"
    listdir := fun _ => .error .osError
    isdir := fun _ => false
    path_exists := fun _ => false
    run_engine := fun _ _ => .error .generic
    parse_json := fun _ => none
    unlink_ok := fun _ => true }

/-- An environment whose rules directory listing reports a `security`
entry (again) and an `audit` entry, both directories. -/
def env_dup : EngineEnv :=
  { initialized := true
    file_id := "scan"
    listdir := fun _ => .ok ["security", "audit"]
    isdir := fun _ => true
    path_exists := fun _ => false
    run_engine := fun _ _ => .error .generic
    parse_json := fun _ => none
    unlink_ok := fun _ => true }

def item_u : ScanningItem :=
  { url := "u", timestamp := 1, status := "analyzing", type := "HTML" }

def item_a : ScanningItem :=
  { url := "a", timestamp := 0, status := "analyzing", type := "Unknown" }

/-- A pipeline state whose registry already holds an entry for url `u`. -/
def st_u : PipelineState :=
  { sast_scanning := [item_u], sast_findings := [], fs := [] }

def rec_u : CapturedRecord :=
  { url := some "u", method := some "GET", host := some "h", path := some "/",
    timestamp := some 1 }

/-- 21 scanning items with pairwise distinct urls. -/
def scan_items_21 : List ScanningItem :=
  (List.range 21).map (fun n =>
    { url := toString n, timestamp := 0, status := "analyzing", type := "Unknown" })

/-- One semgrep result entry, as in the end-to-end scenario of the spec. -/
def sample_result : SemgrepResult :=
  { check_id := "javascript.lang.security.eval.rule"
    extra := { severity := some "WARNING", message := "eval", lines := "eval(x)" }
    path := "temp_sast/scan.js"
    start_line := 1
    end_line := 1 }

/-!
## Helper lemmas
-/

theorem lastN_of_le {α : Type} {n : Nat} {l : List α} (h : l.length ≤ n) :
    lastN n l = l := by
  unfold lastN
  rw [Nat.sub_eq_zero_of_le h, List.drop_zero]

theorem lastN_length {α : Type} (n : Nat) (l : List α) :
    (lastN n l).length = l.length - (l.length - n) := by
  simp [lastN]

theorem lastN_length_of_lt {α : Type} {n : Nat} {l : List α} (h : n < l.length) :
    (lastN n l).length = n := by
  rw [lastN_length]; omega

theorem lastN_length_le {α : Type} (n : Nat) (l : List α) :
    (lastN n l).length ≤ n := by
  rw [lastN_length]; omega

theorem cappedAppend_eq_lastN {α : Type} (cap : Nat) (store : List α) (a : α)
    (h : store.length ≤ cap) :
    cappedAppend cap store a = lastN cap (store ++ [a]) := by
  unfold cappedAppend lastN
  simp only [List.length_append, List.length_cons, List.length_nil]
  by_cases hc : cap < store.length + (0 + 1)
  · have hlen : store.length = cap := by omega
    simp [hc, hlen]
  · have : store.length + (0 + 1) - cap = 0 := by omega
    simp [hc, this]

theorem lastN_lastN_append {α : Type} (cap : Nat) (l r : List α) :
    lastN cap (lastN cap l ++ r) = lastN cap (l ++ r) := by
  unfold lastN
  rcases Nat.le_total l.length cap with h | h
  · rw [Nat.sub_eq_zero_of_le h, List.drop_zero]
  · have hk : l.length - cap ≤ l.length := Nat.sub_le _ _
    have hsplit : List.drop (l.length - cap) l ++ r = (l ++ r).drop (l.length - cap) :=
      (List.drop_append_of_le_length hk).symm
    rw [hsplit, List.drop_drop]
    congr 1
    simp only [List.length_append, List.length_drop]
    omega

theorem foldl_cappedAppend {α : Type} (cap : Nat) (xs : List α) :
    ∀ store : List α, store.length ≤ cap →
      xs.foldl (cappedAppend cap) store = lastN cap (store ++ xs) := by
  induction xs with
  | nil => intro store h; simp [lastN_of_le h]
  | cons x xs ih =>
    intro store h
    rw [List.foldl_cons]
    have hlen : (cappedAppend cap store x).length ≤ cap := by
      rw [cappedAppend_eq_lastN cap store x h]
      exact lastN_length_le _ _
    rw [ih _ hlen, cappedAppend_eq_lastN cap store x h, lastN_lastN_append]
    simp

theorem mem_cappedAppend {α : Type} {cap : Nat} {store : List α} {a b : α}
    (h : b ∈ cappedAppend cap store a) : b ∈ store ++ [a] := by
  unfold cappedAppend at h
  by_cases hc : cap < (store ++ [a]).length
  · simp only [hc, if_true] at h
    exact List.drop_subset 1 _ h
  · simpa only [hc, if_false] using h

theorem add_scanning_item_of_fresh (reg : List ScanningItem) (item : ScanningItem)
    (h : ∀ s ∈ reg, s.url ≠ item.url) :
    add_scanning_item reg (some item) = cappedAppend MAX_SCANNING_ITEMS reg item := by
  have hfilter : reg.filter (fun scan => scan.url != item.url) = reg :=
    List.filter_eq_self.mpr (fun s hs => bne_iff_ne.mpr (h s hs))
  simp only [add_scanning_item, cappedAppend, hfilter]

theorem add_sast_findings_eq_foldl {α : Type} (store items : List α) (h : ¬items.isEmpty) :
    add_sast_findings store items = items.foldl (cappedAppend MAX_SAST_FINDINGS) store := by
  unfold add_sast_findings cappedAppend
  simp [h]

theorem splitDots_cons_dot (cs : List Char) :
    splitDots ('.' :: cs) = [] :: splitDots cs := by
  rw [splitDots, if_pos rfl]

theorem splitDots_cons_ne (c : Char) (cs : List Char) (h : c ≠ '.') :
    splitDots (c :: cs) =
      match splitDots cs with
      | [] => [[c]]
      | seg :: segs => (c :: seg) :: segs := by
  rw [splitDots, if_neg h]

theorem splitDots_ne_nil (l : List Char) : splitDots l ≠ [] := by
  cases l with
  | nil => simp [splitDots]
  | cons c cs =>
    by_cases hc : c = '.'
    · subst hc; rw [splitDots_cons_dot]; simp
    · rw [splitDots_cons_ne c cs hc]
      cases splitDots cs <;> simp

theorem splitDots_no_dot : ∀ {l : List Char}, '.' ∉ l → splitDots l = [l] := by
  intro l
  induction l with
  | nil => intro _; rfl
  | cons c cs ih =>
    intro h
    have hc : c ≠ '.' := fun hcc => h (hcc ▸ List.mem_cons_self c cs)
    have hcs : '.' ∉ cs := fun hm => h (List.mem_cons_of_mem c hm)
    unfold splitDots
    simp only [hc, if_false]
    rw [ih hcs]

theorem getLastD_ignore_default {α : Type} {l : List α} (a b : α) (h : l ≠ []) :
    l.getLastD a = l.getLastD b := by
  cases l with
  | nil => exact absurd rfl h
  | cons x xs => rw [List.getLastD_cons, List.getLastD_cons]

theorem splitDots_append_dot_length (l post : List Char) :
    2 ≤ (splitDots (l ++ '.' :: post)).length := by
  induction l with
  | nil =>
    rw [List.nil_append, splitDots_cons_dot]
    have h1 : 1 ≤ (splitDots post).length :=
      List.length_pos.mpr (splitDots_ne_nil post)
    simp only [List.length_cons]
    omega
  | cons c cs ih =>
    rw [List.cons_append]
    by_cases hc : c = '.'
    · subst hc
      rw [splitDots_cons_dot]
      have h1 : 1 ≤ (splitDots (cs ++ '.' :: post)).length :=
        List.length_pos.mpr (splitDots_ne_nil _)
      simp only [List.length_cons]
      omega
    · rw [splitDots_cons_ne c _ hc]
      rcases hsp : splitDots (cs ++ '.' :: post) with _ | ⟨seg, segs⟩
      · exact absurd hsp (splitDots_ne_nil _)
      · rw [hsp] at ih
        simpa using ih

theorem lastSeg_append_dot (l post : List Char) :
    (splitDots (l ++ '.' :: post)).getLastD [] = (splitDots post).getLastD [] := by
  induction l with
  | nil =>
    rw [List.nil_append, splitDots_cons_dot, List.getLastD_cons]
  | cons c cs ih =>
    rw [List.cons_append]
    by_cases hc : c = '.'
    · subst hc
      rw [splitDots_cons_dot, List.getLastD_cons]
      exact ih
    · rw [splitDots_cons_ne c _ hc]
      rcases hsp : splitDots (cs ++ '.' :: post) with _ | ⟨seg, segs⟩
      · exact absurd hsp (splitDots_ne_nil _)
      · have hlen := splitDots_append_dot_length cs post
        rw [hsp] at hlen
        simp only [List.length_cons] at hlen
        have hsegs : segs ≠ [] := by
          cases segs with
          | nil => simp at hlen
          | cons _ _ => simp
        rw [hsp, List.getLastD_cons] at ih
        rw [List.getLastD_cons]
        rw [getLastD_ignore_default (c :: seg) seg hsegs]
        exact ih

/-!
## Claim theorems
-/

/-- C5: `map_semgrep_severity_to_sast_severity` returns `CRITICAL` when
the input equals `ERROR` ignoring case, `HIGH` when it equals `WARNING`
ignoring case, `MEDIUM` when it equals `INFO` ignoring case, and `MEDIUM`
for any other or missing/None input. -/
theorem C5_severity_mapping :
    (∀ s : String, strUpper s = "ERROR" →
      map_semgrep_severity_to_sast_severity (some s) = "CRITICAL") ∧
    (∀ s : String, strUpper s = "WARNING" →
      map_semgrep_severity_to_sast_severity (some s) = "HIGH") ∧
    (∀ s : String, strUpper s = "INFO" →
      map_semgrep_severity_to_sast_severity (some s) = "MEDIUM") ∧
    (∀ s : String, strUpper s ≠ "ERROR" → strUpper s ≠ "WARNING" →
      map_semgrep_severity_to_sast_severity (some s) = "MEDIUM") ∧
    map_semgrep_severity_to_sast_severity none = "MEDIUM" := by
  refine ⟨?_, ?_, ?_, ?_, rfl⟩
  · intro s h
    simp only [map_semgrep_severity_to_sast_severity]
    by_cases hs : s = ""
    · subst hs; exact absurd h (by decide)
    · rw [if_neg hs, h]; rfl
  · intro s h
    simp only [map_semgrep_severity_to_sast_severity]
    by_cases hs : s = ""
    · subst hs; exact absurd h (by decide)
    · rw [if_neg hs, h]; rfl
  · intro s h
    simp only [map_semgrep_severity_to_sast_severity]
    by_cases hs : s = ""
    · subst hs; rfl
    · rw [if_neg hs, h]; rfl
  · intro s h1 h2
    simp only [map_semgrep_severity_to_sast_severity]
    by_cases hs : s = ""
    · rw [if_pos hs]
    · rw [if_neg hs]
      by_cases h3 : strUpper s = "INFO"
      · rw [h3]; rfl
      · have hlook : severity_map.lookup (strUpper s) = none := by
          simp only [severity_map, List.lookup,
            beq_eq_false_iff_ne.mpr h1, beq_eq_false_iff_ne.mpr h2,
            beq_eq_false_iff_ne.mpr h3]
        rw [hlook]

/-- C5 witness: the mapping evaluated at `Error`, `warning`, `bogus` and
a missing severity. -/
theorem C5_severity_mapping_witness :
    map_semgrep_severity_to_sast_severity (some "Error") = "CRITICAL" ∧
    map_semgrep_severity_to_sast_severity (some "warning") = "HIGH" ∧
    map_semgrep_severity_to_sast_severity (some "Info") = "MEDIUM" ∧
    map_semgrep_severity_to_sast_severity (some "bogus") = "MEDIUM" ∧
    map_semgrep_severity_to_sast_severity none = "MEDIUM" :=
  ⟨C5_severity_mapping.1 "Error" (by decide),
   C5_severity_mapping.2.1 "warning" (by decide),
   C5_severity_mapping.2.2.1 "Info" (by decide),
   C5_severity_mapping.2.2.2.1 "bogus" (by decide) (by decide),
   C5_severity_mapping.2.2.2.2⟩

/-- C7: the scratch-file extension follows the priority: content-type
substring matches (`html`→`.html`, `javascript`→`.js`, `json`→`.json`,
`php`→`.php`, `python`→`.py`, tested in that order) take precedence;
otherwise the URL suffix (`.js`, `.php`, `.py`) decides; otherwise
`.txt`.  Stated as a refinement: the source-derived chain equals the
spec-side priority function. -/
theorem C7_extension_priority (content_type url : String) :
    semgrep_extension content_type url = extension_spec content_type url := by
  unfold semgrep_extension extension_spec
  cases h1 : strContains content_type "html" <;>
  cases h2 : strContains content_type "javascript" <;>
  cases h3 : strContains content_type "json" <;>
  cases h4 : strContains content_type "php" <;>
  cases h5 : strContains content_type "python" <;>
  cases h6 : strEndsWith url ".js" <;>
  cases h7 : strEndsWith url ".php" <;>
  cases h8 : strEndsWith url ".py" <;>
  simp [List.find?, h1, h2, h3, h4, h5, h6, h7, h8]

/-- C3: after `add_scanning_item` with an item carrying a url, the
registry contains exactly one entry whose url equals the url of the item,
namely the new item itself (with its status, timestamp and type): any
prior entry with that URL is replaced, never duplicated. -/
theorem C3_upsert_by_url (reg : List ScanningItem) (item : ScanningItem) :
    (add_scanning_item reg (some item)).filter (fun s => s.url == item.url) = [item] := by
  simp only [add_scanning_item]
  have hnone : ∀ s ∈ reg.filter (fun scan => scan.url != item.url),
      (s.url == item.url) = false := fun s hs =>
    beq_eq_false_iff_ne.mpr (bne_iff_ne.mp ((List.mem_filter.mp hs).2))
  by_cases hlen :
      MAX_SCANNING_ITEMS < (reg.filter (fun scan => scan.url != item.url) ++ [item]).length
  · rw [if_pos hlen]
    have hpos : 1 ≤ (reg.filter (fun scan => scan.url != item.url)).length := by
      simp only [List.length_append, List.length_cons, List.length_nil] at hlen
      have h20 : 1 ≤ MAX_SCANNING_ITEMS := by decide
      omega
    rw [List.drop_append_of_le_length hpos, List.filter_append]
    have hdrop_nil :
        ((reg.filter (fun scan => scan.url != item.url)).drop 1).filter
          (fun s => s.url == item.url) = [] :=
      List.filter_eq_nil_iff.mpr (fun a ha => by
        simp [hnone a (List.drop_subset 1 _ ha)])
    rw [hdrop_nil]
    simp
  · rw [if_neg hlen, List.filter_append]
    have hfil : (reg.filter (fun scan => scan.url != item.url)).filter
        (fun s => s.url == item.url) = [] :=
      List.filter_eq_nil_iff.mpr (fun a ha => by simp [hnone a ha])
    rw [hfil]
    simp

theorem update_status_length (reg : List ScanningItem) (url status : String) :
    (update_scanning_item_status reg url status).length = reg.length := by
  induction reg with
  | nil => rfl
  | cons item rest ih =>
    simp only [update_scanning_item_status]
    by_cases h : item.url = url
    · rw [if_pos h]; simp
    · rw [if_neg h]; simp [ih]

theorem update_status_no_match (reg : List ScanningItem) (url status : String)
    (h : ∀ s ∈ reg, s.url ≠ url) :
    update_scanning_item_status reg url status = reg := by
  induction reg with
  | nil => rfl
  | cons item rest ih =>
    simp only [update_scanning_item_status]
    rw [if_neg (h item (List.mem_cons_self item rest))]
    rw [ih (fun s hs => h s (List.mem_cons_of_mem item hs))]

theorem update_status_first_match (A : List ScanningItem) (m : ScanningItem)
    (B : List ScanningItem) (url status : String)
    (hA : ∀ a ∈ A, a.url ≠ url) (hm : m.url = url) :
    update_scanning_item_status (A ++ m :: B) url status =
      A ++ { m with status := status } :: B := by
  induction A with
  | nil =>
    simp only [List.nil_append, update_scanning_item_status]
    rw [if_pos hm]
  | cons a A ih =>
    simp only [List.cons_append, update_scanning_item_status]
    rw [if_neg (hA a (List.mem_cons_self a A))]
    exact congrArg _ (ih (fun x hx => hA x (List.mem_cons_of_mem a hx)))

/-- C10: `update_scanning_item_status url status` changes at most the
status field of the first entry whose url matches: the registry length
is unchanged, the call is a no-op when no entry has that URL, and when
the registry splits as `A ++ m :: B` with the first match `m`, the result
is `A ++ (m with the new status) :: B` — every other entry, the order,
and the url, timestamp and type of the matched entry are untouched. -/
theorem C10_update_status_frame (reg : List ScanningItem) (url status : String) :
    (update_scanning_item_status reg url status).length = reg.length ∧
    ((∀ s ∈ reg, s.url ≠ url) → update_scanning_item_status reg url status = reg) ∧
    (∀ (A : List ScanningItem) (m : ScanningItem) (B : List ScanningItem),
      reg = A ++ m :: B → (∀ a ∈ A, a.url ≠ url) → m.url = url →
      update_scanning_item_status reg url status =
        A ++ { m with status := status } :: B) :=
  ⟨update_status_length reg url status,
   update_status_no_match reg url status,
   fun A m B hreg hA hm => hreg ▸ update_status_first_match A m B url status hA hm⟩

/-- C10 witness: updating url `u` in a two-entry registry rewrites only
the status of the second entry. -/
theorem C10_update_status_frame_witness :
    update_scanning_item_status [item_a, item_u] "u" "completed" =
      [item_a, { item_u with status := "completed" }] :=
  (C10_update_status_frame [item_a, item_u] "u" "completed").2.2
    [item_a] item_u [] rfl (by decide) rfl

/-- C9: when the record is empty/None or the body is empty/None,
`analyze_sast` returns the empty list immediately with no side effects:
the state (findings store, scanning registry, filesystem) is unchanged
and no deferred cleanup is scheduled, so no ScanningItem is ever created
for the URL of the record. -/
theorem C9_empty_inputs (env : EngineEnv) (now : Int) (st : PipelineState)
    (record : Option CapturedRecord) (body : Option String) (headers : Option Headers)
    (h : record = none ∨ body = none ∨ body = some "") :
    analyze_sast env now st record body headers = ([], st, []) := by
  rcases h with h | h | h
  · subst h; rfl
  · subst h
    cases record with
    | none => rfl
    | some r => rfl
  · subst h
    cases record with
    | none => rfl
    | some r => simp [analyze_sast]

/-- C9 witness: an absent record at a concrete state. -/
theorem C9_empty_inputs_witness :
    analyze_sast env_ok 0 st_u none none none = ([], st_u, []) :=
  C9_empty_inputs env_ok 0 st_u none none none (Or.inl rfl)

/-- C8: ruleset resolution yields `[]` unless the extension is `.js`,
`.html`, `.php` or `.py`; for a supported extension (with its language
directory) the resolved list starts with `<rules-root>/<language>/security`
and is followed by every immediate subdirectory of
`<rules-root>/<language>`, in directory-listing order, without
deduplicating a reappearing `security`. -/
theorem C8_ruleset_resolution (env : EngineEnv) (extension : String) :
    (extension ∉ [".js", ".html", ".php", ".py"] →
      resolve_rulesets env extension = .ok []) ∧
    (∀ lang : String,
      (extension, lang) ∈ [(".js", "javascript"), (".html", "html"),
        (".php", "php"), (".py", "python")] →
      ∀ items : List String,
        env.listdir (RULES_DIR ++ "/" ++ lang) = .ok items →
        resolve_rulesets env extension = .ok
          ((RULES_DIR ++ "/" ++ lang ++ "/security") ::
            items.filterMap (fun item =>
              if env.isdir (RULES_DIR ++ "/" ++ lang ++ "/" ++ item) then
                some (RULES_DIR ++ "/" ++ lang ++ "/" ++ item)
              else none))) := by
  constructor
  · intro hne
    have h1 : extension ≠ ".js" := fun h => hne (by simp [h])
    have h2 : extension ≠ ".html" := fun h => hne (by simp [h])
    have h3 : extension ≠ ".php" := fun h => hne (by simp [h])
    have h4 : extension ≠ ".py" := fun h => hne (by simp [h])
    unfold resolve_rulesets
    rw [if_neg h1, if_neg h2, if_neg h3, if_neg h4]
    rfl
  · intro lang hmem items hls
    simp only [List.mem_cons, Prod.mk.injEq, List.not_mem_nil, or_false] at hmem
    rcases hmem with ⟨he, hl⟩ | ⟨he, hl⟩ | ⟨he, hl⟩ | ⟨he, hl⟩ <;> subst he <;> subst hl
    · unfold resolve_rulesets
      rw [if_pos rfl]
      unfold list_rulesets
      rw [show env.listdir (RULES_DIR ++ "/javascript") = .ok items from hls]
      rfl
    · unfold resolve_rulesets
      rw [if_neg (by decide), if_pos rfl]
      unfold list_rulesets
      rw [show env.listdir (RULES_DIR ++ "/html") = .ok items from hls]
      rfl
    · unfold resolve_rulesets
      rw [if_neg (by decide), if_neg (by decide), if_pos rfl]
      unfold list_rulesets
      rw [show env.listdir (RULES_DIR ++ "/php") = .ok items from hls]
      rfl
    · unfold resolve_rulesets
      rw [if_neg (by decide), if_neg (by decide), if_neg (by decide), if_pos rfl]
      unfold list_rulesets
      rw [show env.listdir (RULES_DIR ++ "/python") = .ok items from hls]
      rfl

/-- C8 witness: a listing that reports `security` again plus `audit`
yields `security` twice (no deduplication), in listing order. -/
theorem C8_ruleset_resolution_witness :
    resolve_rulesets env_dup ".js" =
      .ok ["semgrep-rules/javascript/security", "semgrep-rules/javascript/security",
           "semgrep-rules/javascript/audit"] := by
  have h := (C8_ruleset_resolution env_dup ".js").2 "javascript" (by simp)
    ["security", "audit"] rfl
  rw [h]
  rfl

/-- C6: a raw engine result entry maps to a Finding whose `type` is the
uppercased last dot-delimited segment of the rule id, whose `cveId` is
`"[SEMGREP-" + rule_id + "]"`, and whose `tech` is the scratch-file
extension without the leading dot, uppercased; in particular rule id
`javascript.lang.security.eval.rule` with extension `.js` yields type
`RULE`, cveId `[SEMGREP-javascript.lang.security.eval.rule]`, tech `JS`. -/
theorem C6_finding_normalization :
    (∀ (f : SemgrepResult) (url method host extension : String) (timestamp : Int),
      (semgrep_result_to_finding f url method host extension timestamp).cveId =
        "[SEMGREP-" ++ f.check_id ++ "]") ∧
    (∀ (f : SemgrepResult) (url method host extension : String) (timestamp : Int),
      '.' ∉ f.check_id.data →
      (semgrep_result_to_finding f url method host extension timestamp).type =
        strUpper f.check_id) ∧
    (∀ (f : SemgrepResult) (url method host extension : String) (timestamp : Int)
      (pre post : List Char),
      f.check_id.data = pre ++ '.' :: post → '.' ∉ post →
      (semgrep_result_to_finding f url method host extension timestamp).type =
        strUpper ⟨post⟩) ∧
    (∀ (f : SemgrepResult) (url method host : String) (timestamp : Int)
      (rest : List Char) (extension : String),
      extension.data = '.' :: rest →
      (semgrep_result_to_finding f url method host extension timestamp).tech =
        strUpper ⟨rest⟩) ∧
    ((semgrep_result_to_finding sample_result "http://x/a.js" "GET" "x" ".js" 1000).type =
        "RULE" ∧
     (semgrep_result_to_finding sample_result "http://x/a.js" "GET" "x" ".js" 1000).cveId =
        "[SEMGREP-javascript.lang.security.eval.rule]" ∧
     (semgrep_result_to_finding sample_result "http://x/a.js" "GET" "x" ".js" 1000).tech =
        "JS") := by
  refine ⟨fun f url method host extension timestamp => rfl, ?_, ?_, ?_, by decide⟩
  · intro f url method host extension timestamp h
    simp only [semgrep_result_to_finding, lastDotSegment]
    rw [splitDots_no_dot h]
    rfl
  · intro f url method host extension timestamp pre post hdata hpost
    simp only [semgrep_result_to_finding, lastDotSegment]
    rw [hdata, lastSeg_append_dot, splitDots_no_dot hpost]
    rfl
  · intro f url method host timestamp rest extension hext
    simp only [semgrep_result_to_finding, strTail]
    rw [hext]
    rfl

/-- C6 witness: the last-dot-segment clause applied at the concrete rule
id, splitting it explicitly before the final dot. -/
theorem C6_finding_normalization_witness :
    (semgrep_result_to_finding sample_result "http://x/a.js" "GET" "x" ".js" 1000).type =
      strUpper "rule" :=
  C6_finding_normalization.2.2.1 sample_result "http://x/a.js" "GET" "x" ".js" 1000
    "javascript.lang.security.eval".data "rule".data (by decide) (by decide)

theorem foldl_add_scanning_eq (xs : List ScanningItem) :
    ∀ st : List ScanningItem,
      (∀ s ∈ st, ∀ x ∈ xs, s.url ≠ x.url) →
      xs.Pairwise (fun a b => a.url ≠ b.url) →
      xs.foldl (fun reg i => add_scanning_item reg (some i)) st =
        xs.foldl (cappedAppend MAX_SCANNING_ITEMS) st := by
  induction xs with
  | nil => intro st _ _; rfl
  | cons x xs ih =>
    intro st hst hp
    rw [List.foldl_cons, List.foldl_cons]
    rw [add_scanning_item_of_fresh st x (fun s hs => hst s hs x (List.mem_cons_self x xs))]
    apply ih
    · intro s hs y hy
      rcases List.mem_append.mp (mem_cappedAppend hs) with h1 | h1
      · exact hst s h1 y (List.mem_cons_of_mem x hy)
      · have hsx : s = x := by simpa using h1
        subst hsx
        exact (List.pairwise_cons.mp hp).1 y hy
    · exact (List.pairwise_cons.mp hp).2

/-- C2: for both bounded stores, after N insertions with N greater than
the cap (distinct URLs for the scanning registry), the store size
equals the cap and its contents are exactly the most recent cap
insertions in insertion order (oldest evicted first). -/
theorem C2_bounded_stores :
    (∀ xs : List ScanningItem,
      xs.Pairwise (fun a b => a.url ≠ b.url) →
      MAX_SCANNING_ITEMS < xs.length →
      (xs.foldl (fun reg i => add_scanning_item reg (some i)) []).length =
          MAX_SCANNING_ITEMS ∧
        xs.foldl (fun reg i => add_scanning_item reg (some i)) [] =
          lastN MAX_SCANNING_ITEMS xs) ∧
    (∀ (α : Type) (ys : List α),
      MAX_SAST_FINDINGS < ys.length →
      (add_sast_findings [] ys).length = MAX_SAST_FINDINGS ∧
        add_sast_findings [] ys = lastN MAX_SAST_FINDINGS ys) := by
  constructor
  · intro xs hpw hlen
    have h0 : ∀ s ∈ ([] : List ScanningItem), ∀ x ∈ xs, s.url ≠ x.url := by simp
    rw [foldl_add_scanning_eq xs [] h0 hpw,
        foldl_cappedAppend MAX_SCANNING_ITEMS xs [] (by simp)]
    rw [List.nil_append]
    exact ⟨lastN_length_of_lt hlen, rfl⟩
  · intro α ys hlen
    have hne : ¬ys.isEmpty := by
      cases ys
      · simp at hlen
      · simp
    rw [add_sast_findings_eq_foldl [] ys hne,
        foldl_cappedAppend MAX_SAST_FINDINGS ys [] (by simp)]
    rw [List.nil_append]
    exact ⟨lastN_length_of_lt hlen, rfl⟩

/-- C2 witness: 21 distinct-url insertions into the scanning registry and
501 insertions into the findings store. -/
theorem C2_bounded_stores_witness :
    ((scan_items_21.foldl (fun reg i => add_scanning_item reg (some i)) []).length =
        MAX_SCANNING_ITEMS ∧
      scan_items_21.foldl (fun reg i => add_scanning_item reg (some i)) [] =
        lastN MAX_SCANNING_ITEMS scan_items_21) ∧
    ((add_sast_findings [] (List.range 501)).length = MAX_SAST_FINDINGS ∧
      add_sast_findings [] (List.range 501) = lastN MAX_SAST_FINDINGS (List.range 501)) :=
  ⟨C2_bounded_stores.1 scan_items_21 (by decide) (by decide),
   C2_bounded_stores.2 Nat (List.range 501)
     (by rw [List.length_range]; decide)⟩

/-- C1 counterexample, refuting the claim as stated: the engine is
initialized and the scratch file `temp_sast/scan.html` is created, but
`os.listdir` on the rules directory raises after the write; the outer
handler of app.py line 191 returns `[]` without reaching the cleanup of
line 186, so the scratch file still exists when the call returns. -/
theorem C1_scratch_leak :
    (run_semgrep_analysis env_cx [] "<html>" "http://a" "GET" "h" "text/html" 1).1 = [] ∧
    "temp_sast/scan.html" ∈
      (run_semgrep_analysis env_cx [] "<html>" "http://a" "GET" "h" "text/html" 1).2 := by
  decide

/-- C1 (amended): the scratch file no longer exists when the call returns
provided no exception escapes the per-ruleset handlers — i.e. ruleset
resolution (`os.listdir`) succeeds, the per-ruleset loop finishes without
an uncaught error (engine failures and JSON decode errors are fine), and
the final `os.unlink` itself succeeds.  An uncaught exception after the
write (e.g. a missing rules directory) leaks the file. -/
theorem C1_scratch_cleanup (env : EngineEnv) (fs : List String)
    (content url method host content_type : String) (timestamp : Int)
    (rulesets : List String) (findings : List Finding)
    (hinit : env.initialized = true)
    (hfresh : TEMP_DIR ++ "/" ++ env.file_id ++ semgrep_extension content_type url ∉ fs)
    (hrs : resolve_rulesets env (semgrep_extension content_type url) = .ok rulesets)
    (hrun : run_rulesets env
        (TEMP_DIR ++ "/" ++ env.file_id ++ semgrep_extension content_type url)
        url method host (semgrep_extension content_type url) timestamp rulesets [] =
        .ok findings)
    (hunlink : env.unlink_ok
        (TEMP_DIR ++ "/" ++ env.file_id ++ semgrep_extension content_type url) = true) :
    (run_semgrep_analysis env fs content url method host content_type timestamp).2 = fs ∧
    TEMP_DIR ++ "/" ++ env.file_id ++ semgrep_extension content_type url ∉
      (run_semgrep_analysis env fs content url method host content_type timestamp).2 := by
  have hmain :
      (run_semgrep_analysis env fs content url method host content_type timestamp).2 = fs := by
    simp only [run_semgrep_analysis, hinit, Bool.not_true, Bool.false_eq_true, if_false,
      hrs, hrun, hunlink, if_true, List.erase_cons_head]
  exact ⟨hmain, fun hmem => hfresh (hmain ▸ hmem)⟩

/-- C1 witness: a run in which ruleset resolution succeeds, no ruleset
path exists (so the loop is a no-op), and unlink succeeds: the scratch
file is gone. -/
theorem C1_scratch_cleanup_witness :
    (run_semgrep_analysis env_ok [] "<html>" "http://a" "GET" "h" "text/html" 1).2 = [] ∧
    TEMP_DIR ++ "/" ++ env_ok.file_id ++ semgrep_extension "text/html" "http://a" ∉
      (run_semgrep_analysis env_ok [] "<html>" "http://a" "GET" "h" "text/html" 1).2 :=
  C1_scratch_cleanup env_ok [] "<html>" "http://a" "GET" "h" "text/html" 1
    ["semgrep-rules/html/security"] [] rfl (by simp) rfl rfl rfl

theorem mem_remove_scanning_ne {reg : List ScanningItem} {url : String} {s : ScanningItem}
    (h : s ∈ remove_scanning_item reg url) : s.url ≠ url :=
  bne_iff_ne.mp ((List.mem_filter.mp h).2)

/-- C4 counterexample, refuting the claim as stated: with an empty body,
`analyze_sast` returns the empty list but leaves the registry untouched,
so a pre-existing ScanningItem for the URL of the record still remains after
the call. -/
theorem C4_empty_body_entry_remains :
    (analyze_sast env_ok 0 st_u (some rec_u) (some "") none).1 = [] ∧
    ∃ s ∈ (analyze_sast env_ok 0 st_u (some rec_u) (some "") none).2.1.sast_scanning,
      s.url = "u" := by
  decide

/-- C4 (amended): `is_js` holds iff the content-type contains
`javascript`, `application/json` or `application/x-javascript`, or the
URL ends in `.js`; `is_text` holds iff the content-type contains `text`
or `xml`, or `is_html`, or `is_js`; when `is_text` is false (and the body
is non-empty) `analyze_sast` returns the empty list and no ScanningItem
for that URL remains in the registry.  (With an empty body the call
returns the empty list and leaves the state unchanged — no ScanningItem
is created, but a pre-existing entry for that URL is not removed.) -/
theorem C4_eligibility_flags (content_type url : String) :
    (is_js content_type url = true ↔
      (strContains content_type "javascript" = true ∨
       strContains content_type "application/json" = true ∨
       strContains content_type "application/x-javascript" = true ∨
       strEndsWith url ".js" = true)) ∧
    (is_text content_type url = true ↔
      (strContains content_type "text" = true ∨
       strContains content_type "xml" = true ∨
       is_html content_type = true ∨
       is_js content_type url = true)) ∧
    (∀ (env : EngineEnv) (now : Int) (st : PipelineState) (r : CapturedRecord)
      (b : String) (headers : Option Headers),
      b ≠ "" →
      is_text (strLower (headers.getD { content_type := "" }).content_type)
        (r.url.getD "") = false →
      (analyze_sast env now st (some r) (some b) headers).1 = [] ∧
      ∀ s ∈ (analyze_sast env now st (some r) (some b) headers).2.1.sast_scanning,
        s.url ≠ r.url.getD "") := by
  refine ⟨?_, ?_, ?_⟩
  · simp [is_js, or_assoc]
  · simp only [is_text, Bool.or_eq_true]
    tauto
  · intro env now st r b headers hb hnt
    constructor
    · simp only [analyze_sast]
      rw [if_neg hb]
      simp [hnt]
    · intro s hs
      simp only [analyze_sast] at hs
      rw [if_neg hb] at hs
      simp only [hnt, Bool.not_false, if_true] at hs
      exact mem_remove_scanning_ne hs

/-- C4 witness: `application/json` classifies as JavaScript-eligible, and
an ineligible content-type short-circuits the pipeline with no findings. -/
theorem C4_eligibility_flags_witness :
    is_js "application/json" "http://x/data" = true ∧
    (analyze_sast env_ok 0 st_u (some rec_u) (some "data")
        (some { content_type := "application/octet-stream" })).1 = [] :=
  ⟨(C4_eligibility_flags "application/json" "http://x/data").1.mpr
      (Or.inr (Or.inl (by decide))),
   ((C4_eligibility_flags "" "").2.2 env_ok 0 st_u rec_u "data"
      (some { content_type := "application/octet-stream" }) (by decide) (by decide)).1⟩

end SnapShot
